import Mathlib

/-!
Verification of the SoundCloud-style remote-media resolution engine
(src/yt_dlp/extractor/soundcloud.py) against its design specification.

The Python source is shallowly embedded: pure computations become Lean
functions, the network is an explicit oracle (environment of functions),
and the mutable credential cache is threaded as explicit state.
-/

namespace Soundcloud

/-! ## Generic string helpers (Python semantics) -/

/-- Substring test on character lists: Python `needle in hay`. -/
def hasSub (hay needle : List Char) : Bool :=
  needle.isPrefixOf hay ||
    match hay with
    | [] => false
    | _ :: t => hasSub t needle

/-- Substring test on strings: Python `needle in hay`. -/
def strHasSub (hay needle : String) : Bool :=
  hasSub hay.toList needle.toList

/-- Python `sep.join(parts)`. -/
def pyJoin (sep : String) : List String → String
  | [] => ""
  | [m] => m
  | m :: ms => m ++ sep ++ pyJoin sep ms

/-- `needle` occurs as a contiguous substring of `hay` (at the data level). -/
def StrContains (hay needle : String) : Prop :=
  ∃ pre post : List Char, hay.data = pre ++ needle.data ++ post

/-- Pythonic truthiness of an optional string: `None` and the empty
string are falsy. -/
def optFalsy : Option String → Bool
  | none => true
  | some s => s.isEmpty

/-- `str_or_none` followed by a truthiness check, as used when building
format-id components: keep a string only when it is non-empty. -/
def truthyParts : Option String → List String
  | none => []
  | some s => if s.isEmpty then [] else [s]

/-- `join_nonempty(*values, delim)`: join the truthy values with the
delimiter (utils helper; its semantics is `delim.join(filter(None, values))`). -/
def joinNonempty (delim : String) (vals : List (Option String)) : String :=
  pyJoin delim (vals.foldr (fun v acc => truthyParts v ++ acc) [])

/-! ## Format selector (`SoundcloudBaseIE._is_requested`, lines 73-81)

The configured patterns are `re.escape`d with `\*` turned back into `.*`
and joined into one alternation which is `fullmatch`ed against the
identity key.  Semantically each pattern is a glob over literal
characters where `*` matches any (possibly empty) span, and the key must
be matched whole. -/

/-- Whole-string glob matching: the compiled `re.escape(p).replace('\*','.*')`
pattern `fullmatch`ed against the input. -/
def globMatch : List Char → List Char → Bool
  | [], s => s.isEmpty
  | p :: ps, s =>
    if p = '*' then
      globMatch ps s ||
        match s with
        | [] => false
        | _ :: t => globMatch (p :: ps) t
    else
      match s with
      | [] => false
      | c :: cs => p = c && globMatch ps cs
termination_by ps s => (ps.length, s.length)

/-- `SoundcloudBaseIE._DEFAULT_FORMATS` (line 73). -/
def DEFAULT_FORMATS : List String :=
  ["http_aac", "hls_aac", "http_opus", "hls_opus", "http_mp3", "hls_mp3"]

/-- One branch of the compiled alternation: the literal token `default`
expands to the alternation of the escaped default formats, any other
pattern is matched as a glob. -/
def patternMatch (pat key : String) : Bool :=
  if pat = "default" then
    DEFAULT_FORMATS.any fun d => globMatch d.toList key.toList
  else
    globMatch pat.toList key.toList

/-- `SoundcloudBaseIE._is_requested` (lines 75-81): the alternation of
all configured patterns, `fullmatch`ed against the identity key. -/
def is_requested (patterns : List String) (key : String) : Bool :=
  patterns.any fun p => patternMatch p key

/-- The effective pattern list for a given configuration.  An absent
configuration uses the source default `['default']` (line 80).
Modelled from the spec for the explicitly-empty case: an empty
configuration behaves as the `default` set (`_configuration_arg` lives
outside src/). -/
def formatsConfig : Option (List String) → List String
  | none => ["default"]
  | some [] => ["default"]
  | some l => l

/-! ## Format classifier (`_extract_info_dict`, lines 284-300) -/

/-- Protocol normalization for one raw transcoding (lines 286-292):
`progressive` becomes `http`; a non-`hls` protocol with `/hls` in the
URL becomes `hls`; raw `encrypted-hls` or `/encrypted-hls` in the URL
becomes `hls-aes`. -/
def classifyProtocol (rawProto : Option String) (format_url : String) :
    Option String :=
  let p := if rawProto = some "progressive" then some "http" else rawProto
  let p := if p ≠ some "hls" && strHasSub format_url "/hls" then some "hls" else p
  if p = some "encrypted-hls" || strHasSub format_url "/encrypted-hls" then
    some "hls-aes"
  else p

/-- Python `preset.split('_')[0]`: the characters before the first
underscore. -/
def headToken (s : String) : String :=
  (s.toList.takeWhile fun c => c ≠ '_').asString

/-- Extension resolution (lines 294-298): the preset's leading token when
the (truthy) preset yields a token in `KNOWN_EXTENSIONS`, otherwise the
extension derived from the MIME type.  `known` and `m2e` stand for
`KNOWN_EXTENSIONS` membership and `mimetype2ext`, which live outside
src/ and are kept abstract. -/
def classifyExt (known : String → Bool) (m2e : Option String → Option String)
    (preset mime : Option String) : Option String :=
  let ext : Option String :=
    match preset with
    | some p => if p.isEmpty then none else some (headToken p)
    | none => none
  match ext with
  | some e => if known e then some e else m2e mime
  | none => m2e mime

/-! ## Credential store (`SoundcloudBaseIE`, lines 83-118)

`_download_json` attaches the current client id to the query and, on an
authorization-class rejection (HTTP 401/403), invalidates the cached id,
rescans the platform bootstrap scripts for an embedded 32-character
identifier, persists it, and retries — the loop body runs at most twice
(`for _ in range(2)`). -/

/-- Cause of an `ExtractorError`: an HTTP status-coded failure or a
non-HTTP failure. -/
inductive ErrCause where
  | http (status : Nat)
  | network
deriving DecidableEq, Repr

/-- An `ExtractorError` with its optional transport-level cause. -/
structure ExtErr where
  cause : Option ErrCause
  msg : String
deriving DecidableEq, Repr

/-- The 401/403 test of line 111. -/
def isAuthError (e : ExtErr) : Bool :=
  match e.cause with
  | some (.http s) => s = 401 || s = 403
  | _ => false

/-- `\s` of the client-id pattern. -/
def isWs (c : Char) : Bool :=
  c = ' ' || c = '\t' || c = '\n' || c = '\r' || c = '\x0b' || c = '\x0c'

/-- `[0-9a-zA-Z]`. -/
def isIdChar (c : Char) : Bool :=
  c.isDigit || (c ≥ 'a' && c ≤ 'z') || (c ≥ 'A' && c ≤ 'Z')

/-- Try the pattern `client_id\s*:\s*"([0-9a-zA-Z]{32})"` at the head of
the character list, returning the captured 32-character group. -/
def clientIdAt (cs : List Char) : Option String :=
  match "client_id".toList.isPrefixOf cs with
  | false => none
  | true =>
    match (cs.drop 9).dropWhile isWs with
    | ':' :: r2 =>
      match r2.dropWhile isWs with
      | '"' :: r4 =>
        if (r4.take 32).length = 32 && (r4.take 32).all isIdChar &&
            r4.get? 32 = some '"' then
          some (r4.take 32).asString
        else none
      | _ => none
    | _ => none

/-- `re.search` of the client-id pattern over a script body: leftmost
match wins (`_search_regex`, lines 91-93). -/
def findClientId : List Char → Option String
  | [] => none
  | c :: t =>
    match clientIdAt (c :: t) with
    | some v => some v
    | none => findClientId t

/-- Environment of network responses seen by the credential store:
`attempt` is the underlying JSON request as a function of the attached
client id; `scriptSrcs` are the `<script src>` URLs of the bootstrap
page in document order; `fetchScript` downloads a script body
(`fatal=False`, so a failure yields `none`). -/
structure CredEnv (α : Type) where
  attempt : String → Except ExtErr α
  scriptSrcs : List String
  fetchScript : String → Option String

/-- Mutable credential state: the in-memory `_CLIENT_ID` and the cached
value (`none` after `_store_client_id(None)`). -/
structure CredState where
  clientId : String
  cache : Option String
deriving DecidableEq, Repr

/-- `SoundcloudBaseIE._update_client_id` (lines 86-98): scan the scripts
in reversed document order; the first script containing an embedded
32-character identifier supplies the new client id.  Returns `none` when
no script contains one (the `raise ExtractorError` path, line 98). -/
def update_client_id (env : CredEnv α) : Option String :=
  env.scriptSrcs.reverse.findSome? fun src =>
    (env.fetchScript src).bind fun script => findClientId script.toList

/-- Outcome of `SoundcloudBaseIE._download_json`. -/
inductive DLOutcome (α : Type) where
  /-- The underlying request succeeded. -/
  | ok (v : α)
  /-- An exception propagated out of the method. -/
  | raised (e : ExtErr)
  /-- The `non_fatal` path: warn and return `False`. -/
  | nonFatalFalse
  /-- Both loop iterations hit 401/403: control falls off the end of the
  function, which returns `None`. -/
  | fellThrough
deriving DecidableEq, Repr

/-- The fatal error raised when no embedded identifier is found
(line 98). -/
def credUnavailable : ExtErr := ⟨none, "Unable to extract client id"⟩

/-- The `for _ in range(n)` body of `_download_json` (lines 105-118),
with the remaining iteration count explicit. -/
def download_json_loop (env : CredEnv α) (nonFatal : Bool) :
    Nat → CredState → DLOutcome α × CredState
  | 0, st => (.fellThrough, st)
  | n + 1, st =>
    match env.attempt st.clientId with
    | .ok v => (.ok v, st)
    | .error e =>
      if isAuthError e then
        match update_client_id env with
        | none => (.raised credUnavailable, ⟨st.clientId, none⟩)
        | some cid => download_json_loop env nonFatal n ⟨cid, some cid⟩
      else if nonFatal then (.nonFatalFalse, st)
      else (.raised e, st)

/-- `SoundcloudBaseIE._download_json` (lines 100-118): the two-iteration
retry loop. -/
def download_json (env : CredEnv α) (nonFatal : Bool) (st : CredState) :
    DLOutcome α × CredState :=
  download_json_loop env nonFatal 2 st

/-! ## `add_format` (`_extract_info_dict`, lines 243-278) -/

/-- `[0-9a-z]`. -/
def isLowAlnum (c : Char) : Bool :=
  c.isDigit || (c ≥ 'a' && c ≤ 'z')

/-- The lookahead `(?=[/?])`. -/
def slashOrQm : List Char → Bool
  | c :: _ => c = '/' || c = '?'
  | [] => false

/-- Try `\.(?P<abr>\d+)\.(?P<ext>[0-9a-z]{3,4})(?=[/?])` at the head of
the list, returning the `(abr, ext)` groups.  The `{3,4}` quantifier is
greedy: four class characters are preferred over three. -/
def abrExtAt : List Char → Option (String × String)
  | '.' :: rest =>
    let ds := rest.takeWhile Char.isDigit
    let r2 := rest.dropWhile Char.isDigit
    if ds.isEmpty then none
    else
      match r2 with
      | '.' :: r3 =>
        let c4 := r3.take 4
        if c4.length = 4 && c4.all isLowAlnum && slashOrQm (r3.drop 4) then
          some (ds.asString, c4.asString)
        else
          let c3 := r3.take 3
          if c3.length = 3 && c3.all isLowAlnum && slashOrQm (r3.drop 3) then
            some (ds.asString, c3.asString)
          else none
      | _ => none
  | _ => none

/-- `re.search` of the bitrate/extension pattern over the stream URL
(line 244): leftmost match wins. -/
def searchAbrExt : List Char → Option (String × String)
  | [] => none
  | c :: t =>
    match abrExtAt (c :: t) with
    | some v => some v
    | none => searchAbrExt t

/-- Python `int(...)` on a decimal digit string (the regex group is
`\d+`, so the conversion never fails). -/
def digitsToNat (l : List Char) : Nat :=
  l.foldl (fun n c => 10 * n + (c.toNat - 48)) 0

/-- The dict `f` passed into `add_format`, with the keys it may
acquire. -/
structure FDict where
  url : String
  ext : Option String
  abr : Option String
  quality : Option Nat
  format_note : Option String
deriving DecidableEq, Repr

/-- An output stream descriptor (one element of `formats`). -/
structure Format where
  format_id : String
  url : String
  ext : Option String
  abr : Option Nat
  quality : Option Nat
  format_note : Option String
  protocol : Option String
  preference : Option Int
  filesize : Option Nat
  vcodec : Option String
deriving DecidableEq, Repr

/-- `add_format` (lines 243-278): fill missing `abr`/`ext` from the
numeric tag in the stream URL, apply the Premium upgrade for `aac`,
build the deterministic `format_id` join, classify previews, and map the
selection protocol onto the downloader protocol. -/
def add_format (stream_url : String) (f0 : FDict) (protocol : Option String)
    (is_preview : Bool) : Format :=
  let f :=
    match searchAbrExt stream_url.toList with
    | some (abrS, extS) =>
      { f0 with
        abr := if optFalsy f0.abr then some abrS else f0.abr,
        ext := if optFalsy f0.ext then some extS else f0.ext }
    | none => f0
  let idList0 : List String :=
    match protocol with
    | some p => if p.isEmpty then [] else [p]
    | none => []
  let ext := f.ext
  let f :=
    if ext = some "aac" then
      { f with abr := some "256", quality := some 5, format_note := some "Premium" }
    else f
  let idList := idList0 ++ truthyParts f.ext ++ truthyParts f.abr
  let preview := is_preview ||
    strHasSub f0.url "/preview/0/30/" || strHasSub f0.url "/playlist/0/30/"
  let idList := if preview then idList ++ ["preview"] else idList
  let abrN : Option Nat :=
    match f.abr with
    | some s => if s.isEmpty then none else some (digitsToNat s.toList)
    | none => none
  let dlProto :=
    if protocol = some "hls" || protocol = some "hls-aes" then
      if ext = some "aac" then "m3u8" else "m3u8_native"
    else "http"
  { format_id := pyJoin "_" idList
    url := f0.url
    ext := f.ext
    abr := abrN
    quality := f.quality
    format_note := f.format_note
    protocol := some dlProto
    preference := if preview then some (-10) else none
    filesize := none
    vcodec := none }

/-! ## Metadata extraction (`_extract_info_dict`, lines 211-334) -/

/-- The query dict attached to the resolve/probe/stream requests
(lines 217-219): the client id, plus the secret token when truthy. -/
structure Query where
  client_id : String
  secret_token : Option String
deriving DecidableEq, Repr

/-- One raw transcoding from `info['media']['transcodings']`. -/
structure Transcoding where
  url : Option String
  protocol : Option String
  mime_type : Option String
  preset : Option String
  snipped : Bool
deriving DecidableEq, Repr

/-- The fields of the resource payload consumed by the formats part of
`_extract_info_dict`. -/
structure TrackInfo where
  id : String
  downloadable : Bool
  has_downloads_left : Bool
  transcodings : List Transcoding
deriving DecidableEq, Repr

/-- Network/validation oracles of one extraction: `urlOk` is
`url_or_none` (a URL-shape validator; the empty string is never valid),
`known`/`m2e` are `KNOWN_EXTENSIONS` membership and `mimetype2ext`,
`isReq` the compiled format selector, `resolveStream` the transcoding
indirection (the `url` field of the fetched JSON, `none` on failure),
`downloadRedirect` the `redirectUri` of the original-download probe,
`headUrl` the final URL of the HEAD redirect probe, `detectExt` and
`contentLength` the sniffed extension and size of that response. -/
structure ExtractEnv where
  urlOk : String → Bool
  known : String → Bool
  m2e : Option String → Option String
  isReq : String → Bool
  resolveStream : String → Option String
  downloadRedirect : Option String
  headUrl : String → Option String
  detectExt : Option String
  contentLength : Option Nat

/-- Result of the formats-collection passes: the descriptors, the set of
already-taken resolved URLs (as a list), and the trace of issued JSON
requests as (URL, attached query) pairs. -/
structure LoopOut where
  formats : List Format
  urls : List String
  reqs : List (String × Query)
deriving Repr

/-- `url_or_none` applied to an optional string. -/
def urlOrNone (urlOk : String → Bool) : Option String → Option String
  | some u => if urlOk u then some u else none
  | none => none

/-- The per-transcoding loop (lines 281-328): for each transcoding with
a valid URL, normalize protocol and extension, consult the selector,
fetch the indirection JSON, drop empty/duplicate resolved URLs
(`invalid_url`, lines 240-241), and append the built format. -/
def transcodingsLoop (env : ExtractEnv) (q : Query) :
    List Transcoding → List String → LoopOut
  | [], urls => ⟨[], urls, []⟩
  | t :: ts, urls =>
    match urlOrNone env.urlOk t.url with
    | none => transcodingsLoop env q ts urls
    | some format_url =>
      if env.isReq (joinNonempty "_" [classifyProtocol t.protocol format_url,
          classifyExt env.known env.m2e t.preset t.mime_type]) then
        match urlOrNone env.urlOk (env.resolveStream format_url) with
        | none =>
          ⟨(transcodingsLoop env q ts urls).formats,
            (transcodingsLoop env q ts urls).urls,
            (format_url, q) :: (transcodingsLoop env q ts urls).reqs⟩
        | some stream_url =>
          if urls.contains stream_url then
            ⟨(transcodingsLoop env q ts urls).formats,
              (transcodingsLoop env q ts urls).urls,
              (format_url, q) :: (transcodingsLoop env q ts urls).reqs⟩
          else
            ⟨add_format stream_url
                ⟨stream_url, classifyExt env.known env.m2e t.preset t.mime_type,
                  none, none, none⟩
                (classifyProtocol t.protocol format_url)
                (t.snipped || strHasSub format_url "/preview/") ::
                (transcodingsLoop env q ts (stream_url :: urls)).formats,
              (transcodingsLoop env q ts (stream_url :: urls)).urls,
              (format_url, q) :: (transcodingsLoop env q ts (stream_url :: urls)).reqs⟩
      else transcodingsLoop env q ts urls

def API_V2_BASE : String := "https://api-v2.soundcloud.com/"

def BASE_URL : String := "https://soundcloud.com/"

/-- The original-download probe (lines 221-238): when the payload grants
a download, fetch the redirect, HEAD-probe it, and record the
distinguished `download` descriptor with its URL marked as taken. -/
def downloadProbe (env : ExtractEnv) (q : Query) (info : TrackInfo)
    (extract_flat : Bool) : LoopOut :=
  if !extract_flat && info.downloadable && info.has_downloads_left then
    let download_url := API_V2_BASE ++ "tracks/" ++ info.id ++ "/download"
    let reqs := [(download_url, q)]
    match env.downloadRedirect with
    | some redirect =>
      match env.headUrl redirect with
      | some format_url =>
        ⟨[{ format_id := "download"
            url := format_url
            ext := some (env.detectExt.getD "mp3")
            abr := none
            quality := some 10
            format_note := some "Original"
            protocol := none
            preference := none
            filesize := env.contentLength
            vcodec := none }],
          [format_url], reqs⟩
      | none => ⟨[], [], reqs⟩
    | none => ⟨[], [], reqs⟩
  else ⟨[], [], []⟩

/-- The query of lines 217-219: the client id plus the truthy secret
token. -/
def extractQuery (client_id : String) (secret_token : Option String) : Query :=
  ⟨client_id, secret_token.bind fun s => if s.isEmpty then none else some s⟩

/-- The two format-collection passes combined: the outputs of the
original-download probe followed by the transcoding loop seeded with the
probe's taken URLs (nothing in flat mode). -/
def collectPasses (env : ExtractEnv) (info : TrackInfo)
    (secret_token : Option String) (extract_flat : Bool) (client_id : String) :
    LoopOut × LoopOut :=
  (downloadProbe env (extractQuery client_id secret_token) info extract_flat,
    if extract_flat then (⟨[], [], []⟩ : LoopOut)
    else transcodingsLoop env (extractQuery client_id secret_token)
      info.transcodings
      (downloadProbe env (extractQuery client_id secret_token) info
        extract_flat).urls)

/-- The formats part of `_extract_info_dict` (lines 215-331): run the
two collection passes and mark every descriptor audio-only
(`vcodec: none`, lines 330-331).  Returns the descriptors and the trace
of issued requests. -/
def extract_info_dict (env : ExtractEnv) (info : TrackInfo)
    (secret_token : Option String) (extract_flat : Bool) (client_id : String) :
    List Format × List (String × Query) :=
  (((collectPasses env info secret_token extract_flat client_id).1.formats ++
      (collectPasses env info secret_token extract_flat client_id).2.formats).map
      fun f => { f with vcodec := some "none" },
    (collectPasses env info secret_token extract_flat client_id).1.reqs ++
      (collectPasses env info secret_token extract_flat client_id).2.reqs)

/-! ## Paginated collector (`SoundcloudPagedPlaylistBaseIE._entries`,
lines 723-764) -/

/-- The query dict of the collector (lines 726-730), whose `offset` key
is popped after the first page (line 764). -/
structure PageQuery where
  limit : Nat
  linked_partitioning : String
  offset : Option Nat
deriving DecidableEq, Repr

/-- The initial query `{'limit': 200, 'linked_partitioning': '1',
'offset': 0}`. -/
def initPageQuery : PageQuery := ⟨200, "1", some 0⟩

/-- `query.pop('offset', None)`. -/
def dropOffset (q : PageQuery) : PageQuery := { q with offset := none }

/-- One collection page: `{collection: [...], next_href: url | null}`. -/
structure Page (α : Type) where
  collection : List α
  next_href : Option String
deriving DecidableEq, Repr

/-- The `for i in itertools.count()` loop of `_entries` (lines 732-764),
with the unbounded generator bounded by explicit fuel.  Pages are
fetched at the current URL with the current query; each page's records
are yielded in order; the returned `next_href` is followed verbatim with
the `offset` parameter dropped; traversal stops when `next_href` is
absent.  Returns the request trace and the yielded records. -/
def entriesRun (fetch : String → PageQuery → Page α) :
    Nat → String → PageQuery → List (String × PageQuery) × List α
  | 0, _, _ => ([], [])
  | fuel + 1, url, q =>
    match (fetch url q).next_href with
    | none => ([(url, q)], (fetch url q).collection)
    | some nextUrl =>
      ((url, q) :: (entriesRun fetch fuel nextUrl (dropOffset q)).1,
        (fetch url q).collection ++ (entriesRun fetch fuel nextUrl (dropOffset q)).2)

/-! ## Retry policy (`RetryManager` use in `_entries`, lines 733-745) -/

/-- Modelled from the spec: `RetryManager` (yt_dlp.utils, outside src/)
is a deterministic bounded-attempt loop — `withRetry(op, isRetryable,
maxAttempts)` runs attempts `1, 2, ...`; a failing attempt is retried
only while `isRetryable` holds and attempts remain; the final exhausted
attempt's error is surfaced unchanged. -/
def withRetryGo (isRetryable : ExtErr → Bool) (op : Nat → Except ExtErr α) :
    Nat → Nat → Except ExtErr α
  | attempt, remaining =>
    match op attempt with
    | .ok v => .ok v
    | .error e =>
      match remaining with
      | 0 => .error e
      | r + 1 =>
        if isRetryable e then withRetryGo isRetryable op (attempt + 1) r
        else .error e

/-- Modelled from the spec: the retry wrapper with `maxAttempts` total
attempts. -/
def withRetry (maxAttempts : Nat) (isRetryable : ExtErr → Bool)
    (op : Nat → Except ExtErr α) : Except ExtErr α :=
  withRetryGo isRetryable op 1 (maxAttempts - 1)

/-- The retryability test of lines 740-744: re-raise unless the cause is
an `HTTPError` with status 502. -/
def pageRetryable (e : ExtErr) : Bool :=
  match e.cause with
  | some (.http s) => s = 502
  | _ => false

/-- One page fetch of `_entries` wrapped in the retry manager with the
502-only classifier. -/
def fetchPageWithRetry (maxAttempts : Nat) (op : Nat → Except ExtErr (Page α)) :
    Except ExtErr (Page α) :=
  withRetry maxAttempts pageRetryable op

/-! ## Resolve-error reporting (`SoundcloudSetIE._real_extract`,
lines 707-709, and `SoundcloudRelatedIE._real_extract`, lines 939-941) -/

/-- One element of the platform's `errors` list. -/
structure ApiError where
  error_message : String
deriving DecidableEq, Repr

/-- `SoundcloudSetIE._real_extract` error check (lines 707-709): when
the payload has an `errors` key, raise with all `error_message`s joined
by commas.  Returns the raised message, or `none` when no error is
raised. -/
def setResolveErrors (errors : Option (List ApiError)) : Option String :=
  match errors with
  | some errs =>
    some ("unable to download video webpage: " ++
      pyJoin "," (errs.map fun e => e.error_message))
  | none => none

/-- `SoundcloudRelatedIE._real_extract` error check (lines 939-941):
when `track.get('errors')` is truthy (a non-empty list), raise with all
`error_message`s joined by commas. -/
def relatedResolveErrors (errors : Option (List ApiError)) : Option String :=
  match errors with
  | some (e :: es) =>
    some ("soundcloud:related said: " ++
      pyJoin "," ((e :: es).map fun x => x.error_message))
  | _ => none

/-! ## Track URL resolution (`SoundcloudIE._real_extract`,
lines 616-638) -/

/-- The named groups of the track URL pattern that the extraction plan
consumes. -/
structure SCMatch where
  uploader : Option String
  title : Option String
  token : Option String
  track_id : Option String
  secret_token : Option String
deriving DecidableEq, Repr

/-- `_resolv_url` (lines 384-386). -/
def resolvUrl (url : String) : String :=
  API_V2_BASE ++ "resolve?url=" ++ url

/-- The request plan of `SoundcloudIE._real_extract` (lines 616-638):
the info-JSON URL, the query's secret token, and the token later handed
to `_extract_info_dict`.  For a canonical api URL the secret token rides
in the query; for a permalink the token is appended to the resolved
path. -/
def realExtractPlan (m : SCMatch) : String × Option String × Option String :=
  match m.track_id with
  | some tid =>
    let token := m.secret_token
    let querySecret := token.bind fun t => if t.isEmpty then none else some t
    (API_V2_BASE ++ "tracks/" ++ tid, querySecret, token)
  | none =>
    let base := m.uploader.getD "" ++ "/" ++ m.title.getD ""
    let token := m.token
    let resolve_title :=
      match token with
      | some t => if t.isEmpty then base else base ++ "/" ++ t
      | none => base
    (resolvUrl (BASE_URL ++ resolve_title), none, token)

/-! ## Helper lemmas -/

theorem toList_inj {s t : String} (h : s.toList = t.toList) : s = t :=
  String.ext h

/-- A glob pattern without a wildcard matches exactly itself. -/
theorem globMatch_lit (p : List Char) (hp : '*' ∉ p) (s : List Char) :
    globMatch p s = true ↔ p = s := by
  induction p generalizing s with
  | nil => cases s <;> simp [globMatch]
  | cons c ps ih =>
    have hc : ¬c = '*' := fun h => hp (h ▸ List.mem_cons_self c ps)
    have hps : '*' ∉ ps := fun h => hp (List.mem_cons_of_mem _ h)
    cases s with
    | nil => simp [globMatch, hc]
    | cons d t =>
      rw [globMatch, if_neg hc]
      simp [ih hps, List.cons.injEq]

/-- A joined list contains each of its member strings as a substring. -/
theorem pyJoin_contains (sep : String) (msgs : List String) (m : String)
    (hm : m ∈ msgs) : StrContains (pyJoin sep msgs) m := by
  induction msgs with
  | nil => cases hm
  | cons a rest ih =>
    cases rest with
    | nil =>
      rcases List.mem_singleton.mp hm with rfl
      exact ⟨[], [], by simp [pyJoin]⟩
    | cons b rest2 =>
      rcases List.mem_cons.mp hm with rfl | hm2
      · exact ⟨[], sep.data ++ (pyJoin sep (b :: rest2)).data, by
          simp [pyJoin, String.data_append]⟩
      · rcases ih hm2 with ⟨pre, post, hsplit⟩
        exact ⟨a.data ++ sep.data ++ pre, post, by
          simp [pyJoin, String.data_append, hsplit]⟩

/-- The `default` alternation accepts exactly the default format
keys. -/
theorem defaultAny (key : String) :
    (DEFAULT_FORMATS.any fun d => globMatch d.toList key.toList) =
      DEFAULT_FORMATS.contains key := by
  apply Bool.coe_iff_coe.mp
  rw [List.any_eq_true]
  constructor
  · rintro ⟨d, hd, hg⟩
    have hstar : '*' ∉ d.toList := by fin_cases hd <;> decide
    have hdk : d = key := toList_inj ((globMatch_lit d.toList hstar key.toList).mp hg)
    subst hdk
    exact List.elem_iff.mpr hd
  · intro h
    have hk : key ∈ DEFAULT_FORMATS := List.elem_iff.mp h
    refine ⟨key, hk, ?_⟩
    have hstar : '*' ∉ key.toList := by fin_cases hk <;> decide
    exact (globMatch_lit key.toList hstar key.toList).mpr rfl

/-! ## C3 — format selector semantics -/

/-- C3: the format selector matches identity keys whole-string; with
configuration `["hls_aac", "http_mp3"]` it accepts exactly those two
keys and rejects `hls_opus`; an empty or absent configuration behaves
exactly as the literal `default` pattern, which expands to the fixed
default protocol-extension set. -/
theorem claim_C3_is_requested :
    (∀ key : String,
        is_requested (formatsConfig (some ["hls_aac", "http_mp3"])) key = true ↔
          (key = "hls_aac" ∨ key = "http_mp3")) ∧
    is_requested (formatsConfig (some ["hls_aac", "http_mp3"])) "hls_opus" = false ∧
    (∀ key : String,
        is_requested (formatsConfig (some [])) key =
          is_requested (formatsConfig none) key) ∧
    (∀ key : String,
        is_requested (formatsConfig none) key = DEFAULT_FORMATS.contains key) := by
  have main : ∀ key : String,
      is_requested (formatsConfig (some ["hls_aac", "http_mp3"])) key = true ↔
        (key = "hls_aac" ∨ key = "http_mp3") := by
    intro key
    constructor
    · intro h
      rcases List.any_eq_true.mp h with ⟨p, hp, hmatch⟩
      fin_cases hp
      · rw [patternMatch, if_neg (by decide)] at hmatch
        exact Or.inl (toList_inj ((globMatch_lit _ (by decide) _).mp hmatch)).symm
      · rw [patternMatch, if_neg (by decide)] at hmatch
        exact Or.inr (toList_inj ((globMatch_lit _ (by decide) _).mp hmatch)).symm
    · rintro (rfl | rfl)
      · refine List.any_eq_true.mpr ⟨"hls_aac", by decide, ?_⟩
        rw [patternMatch, if_neg (by decide)]
        exact (globMatch_lit _ (by decide) _).mpr rfl
      · refine List.any_eq_true.mpr ⟨"http_mp3", by decide, ?_⟩
        rw [patternMatch, if_neg (by decide)]
        exact (globMatch_lit _ (by decide) _).mpr rfl
  refine ⟨main, ?_, fun key => rfl, ?_⟩
  · cases h : is_requested (formatsConfig (some ["hls_aac", "http_mp3"])) "hls_opus"
    · rfl
    · rcases (main _).mp h with h1 | h1 <;> exact absurd h1 (by decide)
  · intro key
    have h1 : is_requested (formatsConfig none) key =
        (DEFAULT_FORMATS.any fun d => globMatch d.toList key.toList) := by
      show (patternMatch "default" key || false) = _
      rw [Bool.or_false, patternMatch, if_pos rfl]
    rw [h1, defaultAny]

/-! ## C2 — protocol/extension normalization -/

/-- C2 counterexample: with a raw protocol of `progressive` and a URL
containing `/hls`, the derived protocol is `hls`, not `http`; likewise a
raw protocol of `encrypted-hls` with `/hls` (but not `/encrypted-hls`)
in the URL yields `hls`, not `hls-aes`. -/
theorem claim_C2_counterexample :
    ¬(classifyProtocol (some "progressive")
        "https://api.example.com/media/hls/track.m3u8" = some "http") ∧
    classifyProtocol (some "progressive")
        "https://api.example.com/media/hls/track.m3u8" = some "hls" ∧
    ¬(classifyProtocol (some "encrypted-hls")
        "https://api.example.com/media/hls/track.m3u8" = some "hls-aes") ∧
    classifyProtocol (some "encrypted-hls")
        "https://api.example.com/media/hls/track.m3u8" = some "hls" := by
  decide

/-- C2 (amended): raw `progressive` normalizes to `http` unless the URL
contains `/hls` (then `hls`) or `/encrypted-hls` (then `hls-aes`); a URL
containing `/encrypted-hls` always yields `hls-aes`; raw `encrypted-hls`
yields `hls-aes` when the URL does not contain `/hls`; the extension is
the preset's leading token when recognized, otherwise it is derived from
the MIME type. -/
theorem claim_C2_protocol_ext :
    (∀ url : String,
        classifyProtocol (some "progressive") url =
          some (if strHasSub url "/encrypted-hls" then "hls-aes"
            else if strHasSub url "/hls" then "hls" else "http")) ∧
    (∀ (rawProto : Option String) (url : String),
        strHasSub url "/encrypted-hls" = true →
          classifyProtocol rawProto url = some "hls-aes") ∧
    (∀ url : String, strHasSub url "/hls" = false →
        classifyProtocol (some "encrypted-hls") url = some "hls-aes") ∧
    (∀ (known : String → Bool) (m2e : Option String → Option String)
        (preset : String) (mime : Option String),
        preset.isEmpty = false → known (headToken preset) = true →
          classifyExt known m2e (some preset) mime = some (headToken preset)) ∧
    (∀ (known : String → Bool) (m2e : Option String → Option String)
        (preset : String) (mime : Option String),
        preset.isEmpty = false → known (headToken preset) = false →
          classifyExt known m2e (some preset) mime = m2e mime) ∧
    (∀ (known : String → Bool) (m2e : Option String → Option String)
        (mime : Option String), classifyExt known m2e none mime = m2e mime) := by
  refine ⟨?_, ?_, ?_, ?_, ?_, ?_⟩
  · intro url
    cases h1 : strHasSub url "/encrypted-hls" <;>
      cases h2 : strHasSub url "/hls" <;>
        simp [classifyProtocol, h1, h2]
  · intro rawProto url h1
    simp [classifyProtocol, h1]
  · intro url h2
    simp [classifyProtocol, h2]
  · intro known m2e preset mime hne hk
    simp [classifyExt, hne, hk]
  · intro known m2e preset mime hne hk
    simp [classifyExt, hne, hk]
  · intro known m2e mime
    simp [classifyExt]

/-- Witness for C2 (amended) at concrete inputs. -/
theorem claim_C2_protocol_ext_witness :
    classifyProtocol none "https://h/encrypted-hls/x" = some "hls-aes" ∧
    classifyProtocol (some "encrypted-hls") "https://h/seg/x" = some "hls-aes" ∧
    classifyExt (fun s => s = "mp3") (fun _ => some "ogg") (some "mp3_1_0") none =
      some "mp3" ∧
    classifyExt (fun s => s = "mp3") (fun _ => some "ogg") (some "aac_256k") none =
      some "ogg" ∧
    classifyExt (fun s => s = "mp3") (fun _ => some "ogg") none (some "audio/ogg") =
      some "ogg" :=
  ⟨claim_C2_protocol_ext.2.1 none _ (by decide),
    claim_C2_protocol_ext.2.2.1 _ (by decide),
    by
      have h := claim_C2_protocol_ext.2.2.2.1 (fun s => s = "mp3")
        (fun _ => some "ogg") "mp3_1_0" none (by decide) (by decide)
      simpa using h,
    by
      have h := claim_C2_protocol_ext.2.2.2.2.1 (fun s => s = "mp3")
        (fun _ => some "ogg") "aac_256k" none (by decide) (by decide)
      simpa using h,
    claim_C2_protocol_ext.2.2.2.2.2 _ _ _⟩

/-! ## C1/C9 — credential lifecycle -/

/-- A captured client id is exactly 32 `[0-9a-zA-Z]` characters. -/
theorem clientIdAt_shape {cs : List Char} {v : String}
    (h : clientIdAt cs = some v) :
    v.toList.length = 32 ∧ v.toList.all isIdChar = true := by
  unfold clientIdAt at h
  split at h
  · exact absurd h (by simp)
  · split at h
    · split at h
      · split at h
        · rename_i hc
          cases h
          simp only [Bool.and_eq_true, decide_eq_true_eq] at hc
          exact ⟨hc.1.1, hc.1.2⟩
        · cases h
      · cases h
    · cases h

/-- `findClientId` only returns well-shaped identifiers. -/
theorem findClientId_shape : ∀ {l : List Char} {v : String},
    findClientId l = some v →
      v.toList.length = 32 ∧ v.toList.all isIdChar = true := by
  intro l
  induction l with
  | nil => intro v h; cases h
  | cons c t ih =>
    intro v h
    rw [findClientId] at h
    split at h
    · rename_i hAt
      cases h
      exact clientIdAt_shape hAt
    · exact ih h

/-- A refreshed client id is an embedded 32-character identifier scanned
out of some bootstrap script. -/
theorem update_client_id_shape {α : Type} {env : CredEnv α} {cid : String}
    (h : update_client_id env = some cid) :
    cid.toList.length = 32 ∧ cid.toList.all isIdChar = true := by
  unfold update_client_id at h
  rcases List.exists_of_findSome?_eq_some h with ⟨src, _, hsrc⟩
  rcases Option.bind_eq_some.mp hsrc with ⟨script, _, hfind⟩
  exact findClientId_shape hfind

/-- C1: when a credential-bearing request is rejected with 401/403, the
store invalidates the cached id, rescans the bootstrap scripts for an
embedded 32-character identifier, persists it and retries the same
request exactly once with the new id; when no script embeds an
identifier, the operation fails with the fatal credential-unavailable
error and no further fallback. -/
theorem claim_C1_auth_refresh {α : Type} (env : CredEnv α) (st : CredState)
    (e : ExtErr) (nonFatal : Bool)
    (hfail : env.attempt st.clientId = .error e) (hauth : isAuthError e = true) :
    (∀ (cid : String) (v : α), update_client_id env = some cid →
        env.attempt cid = .ok v →
          download_json env nonFatal st = (.ok v, ⟨cid, some cid⟩)) ∧
    (update_client_id env = none →
        download_json env nonFatal st =
          (.raised credUnavailable, ⟨st.clientId, none⟩)) ∧
    (∀ cid : String, update_client_id env = some cid →
        cid.toList.length = 32 ∧ cid.toList.all isIdChar = true) := by
  refine ⟨?_, ?_, fun cid h => update_client_id_shape h⟩
  · intro cid v hupd hok
    simp [download_json, download_json_loop, hfail, hauth, hupd, hok]
  · intro hupd
    simp [download_json, download_json_loop, hfail, hauth, hupd]

/-- A concrete credential environment: the first id is rejected with
401, the second bootstrap script embeds a fresh 32-character id, and the
request succeeds under the fresh id. -/
def credEnvA : CredEnv Nat where
  attempt := fun cid =>
    if cid = "a1b2c3d4e5f6a7b8c9d0e1f2a3b4c5d6" then .ok 7
    else .error ⟨some (.http 401), "HTTP Error 401"⟩
  scriptSrcs := ["https://a.sndcdn.com/1.js", "https://a.sndcdn.com/2.js"]
  fetchScript := fun src =>
    if src = "https://a.sndcdn.com/2.js" then
      some "var a=1; client_id : \"a1b2c3d4e5f6a7b8c9d0e1f2a3b4c5d6\";"
    else none

/-- Witness for C1 at the concrete environment. -/
theorem claim_C1_auth_refresh_witness :
    download_json credEnvA false ⟨"oldid", some "oldid"⟩ =
      (.ok 7, ⟨"a1b2c3d4e5f6a7b8c9d0e1f2a3b4c5d6",
        some "a1b2c3d4e5f6a7b8c9d0e1f2a3b4c5d6"⟩) :=
  (claim_C1_auth_refresh credEnvA ⟨"oldid", some "oldid"⟩
      ⟨some (.http 401), "HTTP Error 401"⟩ false (by rfl) (by decide)).1
    "a1b2c3d4e5f6a7b8c9d0e1f2a3b4c5d6" 7 (by decide) (by rfl)

/-- C9: when both the first attempt and the single post-refresh retry
are rejected with 401/403 (each rescan finding an id), the two-iteration
loop is exhausted and `_download_json` silently returns `None` — nothing
is raised and no further retry happens. -/
theorem claim_C9_exhausted_returns_none {α : Type} (env : CredEnv α)
    (st : CredState) (e1 e2 : ExtErr) (cid : String) (nonFatal : Bool)
    (h1 : env.attempt st.clientId = .error e1) (ha1 : isAuthError e1 = true)
    (hupd : update_client_id env = some cid)
    (h2 : env.attempt cid = .error e2) (ha2 : isAuthError e2 = true) :
    download_json env nonFatal st = (.fellThrough, ⟨cid, some cid⟩) := by
  simp [download_json, download_json_loop, h1, ha1, hupd, h2, ha2]

/-- A concrete credential environment in which every attempt is rejected
with 403 while the bootstrap scan keeps finding the same embedded id. -/
def credEnvB : CredEnv Nat where
  attempt := fun _ => .error ⟨some (.http 403), "HTTP Error 403"⟩
  scriptSrcs := ["https://a.sndcdn.com/1.js"]
  fetchScript := fun _ =>
    some "window.__sc_hydration; client_id:\"ZZb2c3d4e5f6a7b8c9d0e1f2a3b4c5d6\""

/-- Witness for C9 at the concrete environment. -/
theorem claim_C9_exhausted_returns_none_witness :
    download_json credEnvB false ⟨"oldid", some "oldid"⟩ =
      (.fellThrough, ⟨"ZZb2c3d4e5f6a7b8c9d0e1f2a3b4c5d6",
        some "ZZb2c3d4e5f6a7b8c9d0e1f2a3b4c5d6"⟩) :=
  claim_C9_exhausted_returns_none credEnvB ⟨"oldid", some "oldid"⟩
    ⟨some (.http 403), "HTTP Error 403"⟩ ⟨some (.http 403), "HTTP Error 403"⟩
    "ZZb2c3d4e5f6a7b8c9d0e1f2a3b4c5d6" false (by rfl) (by decide) (by decide)
    (by rfl) (by decide)

/-! ## C7 — resolution errors -/

/-- C7: when the resolve payload carries an explicit error list, the
operation fails with one error whose message contains every
`error_message` of the payload (joined by commas); in particular the
payload `{"errors": [{"error_message": "not found"}]}` raises an error
containing `not found`. -/
theorem claim_C7_resolution_errors :
    (∀ (errs : List ApiError) (e : ApiError), e ∈ errs →
        ∃ m : String, setResolveErrors (some errs) = some m ∧
          StrContains m e.error_message) ∧
    (∀ (errs : List ApiError) (e : ApiError), e ∈ errs →
        ∃ m : String, relatedResolveErrors (some errs) = some m ∧
          StrContains m e.error_message) ∧
    setResolveErrors (some [⟨"not found"⟩]) =
      some "unable to download video webpage: not found" ∧
    StrContains "unable to download video webpage: not found" "not found" := by
  refine ⟨?_, ?_, by decide, ?_⟩
  · intro errs e he
    refine ⟨_, rfl, ?_⟩
    have hmem : e.error_message ∈ errs.map fun x => x.error_message :=
      List.mem_map_of_mem _ he
    rcases pyJoin_contains "," (errs.map fun x => x.error_message) _ hmem with
      ⟨pre, post, hsplit⟩
    exact ⟨"unable to download video webpage: ".data ++ pre, post, by
      simp [String.data_append, hsplit]⟩
  · intro errs e he
    cases errs with
    | nil => cases he
    | cons a rest =>
      refine ⟨_, rfl, ?_⟩
      have hmem : e.error_message ∈ (a :: rest).map fun x => x.error_message :=
        List.mem_map_of_mem _ he
      rcases pyJoin_contains "," ((a :: rest).map fun x => x.error_message) _ hmem with
        ⟨pre, post, hsplit⟩
      exact ⟨"soundcloud:related said: ".data ++ pre, post, by
        simp only [List.map_cons] at hsplit
        simp [String.data_append, hsplit]⟩
  · exact ⟨"unable to download video webpage: ".data, [], by decide⟩

/-- Witness for C7 at the concrete payload. -/
theorem claim_C7_resolution_errors_witness :
    (∃ m : String, setResolveErrors (some [⟨"not found"⟩]) = some m ∧
        StrContains m "not found") ∧
    (∃ m : String, relatedResolveErrors (some [⟨"no access"⟩]) = some m ∧
        StrContains m "no access") :=
  ⟨claim_C7_resolution_errors.1 [⟨"not found"⟩] ⟨"not found"⟩ (by decide),
    claim_C7_resolution_errors.2.1 [⟨"no access"⟩] ⟨"no access"⟩ (by decide)⟩

/-! ## C6 — per-page retry policy -/

/-- C6: a page fetch is retried only on an HTTP 502 failure — any other
failure propagates immediately even though later attempts would succeed;
with three attempts allowed, failing twice with 502 and succeeding on
the third yields the page, while failing three times propagates the last
error unchanged. -/
theorem claim_C6_page_retry {α : Type} :
    (∀ (e : ExtErr) (p : Page α), pageRetryable e = false →
        fetchPageWithRetry 3
          (fun k => if k = 1 then .error e else .ok p) = .error e) ∧
    (∀ (p : Page α) (m1 m2 : String),
        fetchPageWithRetry 3 (fun k =>
          if k = 1 then .error ⟨some (.http 502), m1⟩
          else if k = 2 then .error ⟨some (.http 502), m2⟩
          else .ok p) = .ok p) ∧
    (∀ (p : Page α) (m1 m2 m3 : String),
        fetchPageWithRetry 3 (fun k =>
          if k = 1 then .error ⟨some (.http 502), m1⟩
          else if k = 2 then .error ⟨some (.http 502), m2⟩
          else if k = 3 then .error ⟨some (.http 502), m3⟩
          else .ok p) = .error ⟨some (.http 502), m3⟩) := by
  refine ⟨?_, ?_, ?_⟩
  · intro e p hnr
    simp [fetchPageWithRetry, withRetry, withRetryGo, hnr]
  · intro p m1 m2
    simp [fetchPageWithRetry, withRetry, withRetryGo, pageRetryable]
  · intro p m1 m2 m3
    simp [fetchPageWithRetry, withRetry, withRetryGo, pageRetryable]

/-- Witness for C6: a 404 failure on the first attempt propagates
immediately. -/
theorem claim_C6_page_retry_witness :
    fetchPageWithRetry 3 (fun k =>
        if k = 1 then .error ⟨some (.http 404), "HTTP Error 404"⟩
        else .ok (⟨["x"], none⟩ : Page String)) =
      .error ⟨some (.http 404), "HTTP Error 404"⟩ :=
  (@claim_C6_page_retry String).1 ⟨some (.http 404), "HTTP Error 404"⟩
    ⟨["x"], none⟩ (by decide)

/-! ## C5 — cursor pagination -/

/-- A three-page fixture: pages of 2, 2 and 1 records, the third page
carrying no continuation URL. -/
def fixturePage : String → PageQuery → Page String := fun url _ =>
  if url = "https://api/base" then ⟨["i1", "i2"], some "https://api/p2"⟩
  else if url = "https://api/p2" then ⟨["i3", "i4"], some "https://api/p3"⟩
  else ⟨["i5"], none⟩

/-- Every request after the first is issued with the `offset` parameter
dropped. -/
theorem entriesRun_offset_none {α : Type} (fetch : String → PageQuery → Page α) :
    ∀ (fuel : Nat) (url : String) (q : PageQuery), q.offset = none →
      ∀ r ∈ (entriesRun fetch fuel url q).1, r.2.offset = none := by
  intro fuel
  induction fuel with
  | zero => intro url q hq r hr; simp [entriesRun] at hr
  | succ n ih =>
    intro url q hq r hr
    rw [entriesRun] at hr
    rcases hnext : (fetch url q).next_href with _ | nextUrl <;> rw [hnext] at hr
    · rcases List.mem_singleton.mp hr with rfl
      exact hq
    · rcases List.mem_cons.mp hr with rfl | hr2
      · exact hq
      · exact ih nextUrl (dropOffset q) rfl r hr2

/-- C5: the first request carries `{limit, linked_partitioning=1,
offset=0}`; every subsequent page follows the returned `next_href`
verbatim with the offset dropped from the query; traversal stops exactly
when `next_href` is absent; over the 3-page fixture the collector yields
exactly five records in page order and terminates. -/
theorem claim_C5_pagination :
    (entriesRun fixturePage 10 "https://api/base" initPageQuery =
      ([("https://api/base", ⟨200, "1", some 0⟩),
        ("https://api/p2", ⟨200, "1", none⟩),
        ("https://api/p3", ⟨200, "1", none⟩)],
        ["i1", "i2", "i3", "i4", "i5"])) ∧
    (∀ (α : Type) (fetch : String → PageQuery → Page α) (fuel : Nat)
        (url : String) (q : PageQuery),
        ∀ r ∈ (entriesRun fetch (fuel + 1) url q).1.tail, r.2.offset = none) ∧
    (∀ (α : Type) (fetch : String → PageQuery → Page α) (fuel : Nat)
        (url : String) (q : PageQuery), (fetch url q).next_href = none →
        entriesRun fetch (fuel + 1) url q = ([(url, q)], (fetch url q).collection)) ∧
    (∀ (α : Type) (fetch : String → PageQuery → Page α) (fuel : Nat)
        (url nextUrl : String) (q : PageQuery),
        (fetch url q).next_href = some nextUrl →
        entriesRun fetch (fuel + 1) url q =
          ((url, q) :: (entriesRun fetch fuel nextUrl (dropOffset q)).1,
            (fetch url q).collection ++
              (entriesRun fetch fuel nextUrl (dropOffset q)).2)) := by
  refine ⟨by decide, ?_, ?_, ?_⟩
  · intro α fetch fuel url q r hr
    rw [entriesRun] at hr
    rcases hnext : (fetch url q).next_href with _ | nextUrl <;> rw [hnext] at hr
    · simp at hr
    · simp only [List.tail_cons] at hr
      exact entriesRun_offset_none fetch fuel nextUrl (dropOffset q) rfl r hr
  · intro α fetch fuel url q hnone
    rw [entriesRun, hnone]
  · intro α fetch fuel url nextUrl q hsome
    rw [entriesRun, hsome]

/-- Witness for C5: the fixture's last page terminates the traversal. -/
theorem claim_C5_pagination_witness :
    entriesRun fixturePage 4 "https://api/p3" (dropOffset initPageQuery) =
      ([("https://api/p3", ⟨200, "1", none⟩)], ["i5"]) :=
  claim_C5_pagination.2.2.1 String fixturePage 3 "https://api/p3"
    ⟨200, "1", none⟩ (by decide)

/-! ## C10 — aac Premium upgrade -/

/-- C10: a descriptor whose extension is `aac` gets bitrate 256,
quality 5 and the `Premium` note, regardless of any bitrate carried by
the dict or parsed from the numeric tag in the stream URL. -/
theorem claim_C10_aac_premium (stream_url : String) (f : FDict)
    (protocol : Option String) (is_preview : Bool)
    (hext : f.ext = some "aac") :
    (add_format stream_url f protocol is_preview).abr = some 256 ∧
    (add_format stream_url f protocol is_preview).quality = some 5 ∧
    (add_format stream_url f protocol is_preview).format_note = some "Premium" := by
  unfold add_format
  rcases h : searchAbrExt stream_url.toList with _ | ⟨abrS, extS⟩ <;>
    simp [hext, optFalsy, show ("aac".isEmpty = false) by decide,
      show ("256".isEmpty = false) by decide] <;>
    decide

/-- Witness for C10: an `aac` descriptor whose stream URL carries a
`.128.` numeric tag still comes out at 256 kbit/s Premium. -/
theorem claim_C10_aac_premium_witness :
    (add_format "https://cf/media/seg.128.aac/c?t"
        ⟨"https://cf/media/seg.128.aac/c?t", some "aac", none, none, none⟩
        (some "hls") false).abr = some 256 ∧
    (add_format "https://cf/media/seg.128.aac/c?t"
        ⟨"https://cf/media/seg.128.aac/c?t", some "aac", none, none, none⟩
        (some "hls") false).quality = some 5 ∧
    (add_format "https://cf/media/seg.128.aac/c?t"
        ⟨"https://cf/media/seg.128.aac/c?t", some "aac", none, none, none⟩
        (some "hls") false).format_note = some "Premium" :=
  claim_C10_aac_premium "https://cf/media/seg.128.aac/c?t"
    ⟨"https://cf/media/seg.128.aac/c?t", some "aac", none, none, none⟩
    (some "hls") false (by decide)

/-! ## C4 — per-URL uniqueness of descriptors -/

/-- `add_format` never changes the dict's `url` key. -/
theorem add_format_url (stream_url : String) (f : FDict)
    (protocol : Option String) (is_preview : Bool) :
    (add_format stream_url f protocol is_preview).url = f.url := by
  unfold add_format
  rcases searchAbrExt stream_url.toList with _ | ⟨abrS, extS⟩ <;> rfl

/-- Invariant of the transcoding loop: descriptors carry pairwise
distinct resolved URLs, and none of them reuses a URL that was already
taken when the loop started. -/
theorem transcodingsLoop_nodup (env : ExtractEnv) (q : Query) :
    ∀ (ts : List Transcoding) (urls : List String),
      (((transcodingsLoop env q ts urls).formats.map fun f => f.url).Nodup ∧
        ∀ f ∈ (transcodingsLoop env q ts urls).formats, f.url ∉ urls) := by
  intro ts
  induction ts with
  | nil => intro urls; simp [transcodingsLoop]
  | cons t ts ih =>
    intro urls
    rw [transcodingsLoop]
    split
    · exact ih urls
    · rename_i format_url _
      split
      · split
        · exact ih urls
        · rename_i stream_url hres
          split
          · exact ih urls
          · rename_i hnotin
            have hmem : stream_url ∉ urls := fun hc =>
              hnotin (List.elem_iff.mpr hc)
            refine ⟨?_, ?_⟩
            · refine List.nodup_cons.mpr ⟨?_, (ih (stream_url :: urls)).1⟩
              intro hc
              rcases List.mem_map.mp hc with ⟨g, hg, hgu⟩
              have hnot := (ih (stream_url :: urls)).2 g hg
              simp only [add_format_url] at hgu
              exact hnot (hgu ▸ List.mem_cons_self _ _)
            · intro g hg
              rcases List.mem_cons.mp hg with rfl | hg2
              · simp only [add_format_url]; exact hmem
              · have hnot := (ih (stream_url :: urls)).2 g hg2
                exact fun hc => hnot (List.mem_cons_of_mem _ hc)
      · exact ih urls

/-- The download probe's descriptor URLs are exactly its taken-URL set
(at most one element). -/
theorem downloadProbe_urls (env : ExtractEnv) (q : Query) (info : TrackInfo)
    (flat : Bool) :
    ((downloadProbe env q info flat).formats.map fun f => f.url) =
        (downloadProbe env q info flat).urls ∧
      (downloadProbe env q info flat).urls.Nodup := by
  unfold downloadProbe
  split
  · split
    · split <;> simp
    · simp
  · simp

/-- C4 (amended): every returned descriptor owns a distinct resolved
URL — an empty or duplicate resolved URL (including the original
download's URL) never produces a second descriptor for the same URL.
(The `format_id` join itself is *not* unique when two distinct URLs
derive the same protocol/extension/bitrate identity.) -/
theorem claim_C4_unique_urls (env : ExtractEnv) (info : TrackInfo)
    (secret_token : Option String) (extract_flat : Bool) (client_id : String) :
    ((extract_info_dict env info secret_token extract_flat client_id).1.map
      fun f => f.url).Nodup := by
  have hvc : ∀ l : List Format,
      ((l.map fun f => { f with vcodec := some "none" }).map fun f => f.url) =
        l.map fun f => f.url := by
    intro l; rw [List.map_map]; rfl
  unfold extract_info_dict collectPasses
  rw [hvc, List.map_append]
  cases extract_flat with
  | true =>
    rw [if_pos rfl]
    simp only [List.map_nil, List.append_nil]
    rw [(downloadProbe_urls env (extractQuery client_id secret_token) info true).1]
    exact (downloadProbe_urls env (extractQuery client_id secret_token) info true).2
  | false =>
    rw [if_neg (by decide)]
    refine List.Nodup.append ?_ ?_ ?_
    · rw [(downloadProbe_urls env (extractQuery client_id secret_token) info false).1]
      exact (downloadProbe_urls env (extractQuery client_id secret_token) info false).2
    · exact (transcodingsLoop_nodup env (extractQuery client_id secret_token)
        info.transcodings _).1
    · intro a ha hb
      rcases List.mem_map.mp hb with ⟨g, hg, rfl⟩
      have hnot := (transcodingsLoop_nodup env (extractQuery client_id secret_token)
        info.transcodings _).2 g hg
      rw [(downloadProbe_urls env (extractQuery client_id secret_token)
        info false).1] at ha
      exact hnot ha

/-- A concrete extraction environment with two transcodings that
resolve to distinct playable URLs while deriving the identical
`http_mp3` identity. -/
def envDup : ExtractEnv where
  urlOk := fun u => !u.isEmpty
  known := fun s => s = "mp3"
  m2e := fun _ => none
  isReq := fun k => k = "http_mp3"
  resolveStream := fun u =>
    if u = "https://api/t1" then some "https://cf/a"
    else if u = "https://api/t2" then some "https://cf/b"
    else none
  downloadRedirect := none
  headUrl := fun _ => none
  detectExt := none
  contentLength := none

/-- A payload with two same-identity transcodings. -/
def infoDup : TrackInfo where
  id := "42"
  downloadable := false
  has_downloads_left := false
  transcodings :=
    [⟨some "https://api/t1", some "progressive", some "audio/mpeg",
        some "mp3_1_0", false⟩,
      ⟨some "https://api/t2", some "progressive", some "audio/mpeg",
        some "mp3_1_0", false⟩]

/-- C4 counterexample: two transcodings with distinct resolved URLs but
the same derived protocol/extension/bitrate identity produce two
descriptors whose `format_id`s coincide — the `format_id` join is not
unique per resource. -/
theorem claim_C4_counterexample :
    ¬(((extract_info_dict envDup infoDup none false "cid").1.map
        fun f => f.format_id).Nodup) ∧
    ((extract_info_dict envDup infoDup none false "cid").1.map
        fun f => f.format_id) = ["http_mp3", "http_mp3"] ∧
    ((extract_info_dict envDup infoDup none false "cid").1.map
        fun f => f.url) = ["https://cf/a", "https://cf/b"] := by
  refine ⟨?_, by decide, by decide⟩
  intro h
  have h2 : ((extract_info_dict envDup infoDup none false "cid").1.map
      fun f => f.format_id) = ["http_mp3", "http_mp3"] := by decide
  rw [h2] at h
  simp at h

/-! ## C8 — secret-token forwarding -/

/-- Every request issued by the download probe carries the extraction
query. -/
theorem downloadProbe_reqs (env : ExtractEnv) (q : Query) (info : TrackInfo)
    (flat : Bool) : ∀ r ∈ (downloadProbe env q info flat).reqs, r.2 = q := by
  unfold downloadProbe
  split
  · split
    · split
      · intro r hr
        rcases List.mem_singleton.mp hr with rfl; rfl
      · intro r hr
        rcases List.mem_singleton.mp hr with rfl; rfl
    · intro r hr
      rcases List.mem_singleton.mp hr with rfl; rfl
  · intro r hr; cases hr

/-- Every request issued by the transcoding loop carries the extraction
query. -/
theorem transcodingsLoop_reqs (env : ExtractEnv) (q : Query) :
    ∀ (ts : List Transcoding) (urls : List String),
      ∀ r ∈ (transcodingsLoop env q ts urls).reqs, r.2 = q := by
  intro ts
  induction ts with
  | nil => intro urls r hr; simp [transcodingsLoop] at hr
  | cons t ts ih =>
    intro urls r hr
    rw [transcodingsLoop] at hr
    split at hr
    · exact ih urls r hr
    · split at hr
      · split at hr
        · rcases List.mem_cons.mp hr with rfl | hr2
          · rfl
          · exact ih urls r hr2
        · split at hr
          · rcases List.mem_cons.mp hr with rfl | hr2
            · rfl
            · exact ih urls r hr2
          · rcases List.mem_cons.mp hr with rfl | hr2
            · rfl
            · exact ih _ r hr2
      · exact ih urls r hr

/-- C8: a secret token on the resource locator is forwarded unchanged —
it rides on the resolve/info request (as a query parameter for canonical
api URLs, as a path component of the resolved permalink otherwise), it
is handed to the extraction, and every original-download probe and
transcoding-indirection request issued during the extraction carries the
same `secret_token` query parameter. -/
theorem claim_C8_secret_token (env : ExtractEnv) (info : TrackInfo)
    (client_id : String) (extract_flat : Bool) (tok : String)
    (htok : tok.isEmpty = false) :
    (∀ r ∈ (extract_info_dict env info (some tok) extract_flat client_id).2,
        r.2.secret_token = some tok) ∧
    (∀ tid : String,
        (realExtractPlan ⟨none, none, none, some tid, some tok⟩).2.1 = some tok ∧
        (realExtractPlan ⟨none, none, none, some tid, some tok⟩).2.2 = some tok) ∧
    (∀ uploader title : String,
        StrContains
          (realExtractPlan ⟨some uploader, some title, some tok, none, none⟩).1
          tok ∧
        (realExtractPlan ⟨some uploader, some title, some tok, none, none⟩).2.2 =
          some tok) := by
  have hq : (extractQuery client_id (some tok)).secret_token = some tok := by
    simp [extractQuery, htok]
  refine ⟨?_, ?_, ?_⟩
  · intro r hr
    unfold extract_info_dict collectPasses at hr
    rcases List.mem_append.mp hr with hr1 | hr2
    · rw [downloadProbe_reqs env _ info extract_flat r hr1]; exact hq
    · cases extract_flat with
      | true => rw [if_pos rfl] at hr2; cases hr2
      | false =>
        rw [if_neg (by decide)] at hr2
        rw [transcodingsLoop_reqs env _ info.transcodings _ r hr2]; exact hq
  · intro tid
    constructor <;> simp [realExtractPlan, htok]
  · intro uploader title
    constructor
    · refine ⟨(API_V2_BASE ++ "resolve?url=" ++
        (BASE_URL ++ (uploader ++ "/" ++ title ++ "/"))).data, [], ?_⟩
      simp [realExtractPlan, htok, resolvUrl, String.data_append]
    · simp [realExtractPlan, htok]

/-- Witness for C8 at a concrete environment and token. -/
theorem claim_C8_secret_token_witness :
    ((extract_info_dict envDup infoDup (some "s-8Pjrp") false "cid").2.map
        fun r => r.2.secret_token) = [some "s-8Pjrp", some "s-8Pjrp"] ∧
    (realExtractPlan ⟨none, none, none, some "123", some "s-8Pjrp"⟩).2.1 =
      some "s-8Pjrp" ∧
    StrContains
      (realExtractPlan ⟨some "artist", some "track", some "s-8Pjrp",
        none, none⟩).1 "s-8Pjrp" :=
  ⟨by decide,
    ((claim_C8_secret_token envDup infoDup "cid" false "s-8Pjrp"
      (by decide)).2.1 "123").1,
    ((claim_C8_secret_token envDup infoDup "cid" false "s-8Pjrp"
      (by decide)).2.2 "artist" "track").1⟩

end Soundcloud
